import Mathlib

/-!
Verification of the TriageID serial-device session manager
(webapp/frontend/contexts/serial-context.tsx and the useSerial hook variant).

The development shallowly embeds, as executable Lean functions:

* the line framer of the read loop (byte chunks decoded as text, accumulated
  in a buffer, split on CR LF or LF, trimmed, empty segments discarded,
  final unterminated segment retained);
* the tag-id extractor (the USER_ID_REGEX and OK_READ_REGEX matching on each
  complete line) in both source variants: the serial-context readLoop and
  the older useSerial readLoop;
* the persisted device-filter cookie store, together with models of the
  platform builtins it calls (JSON.parse and JSON.stringify restricted to
  the flat values this component can store, and the percent encoding of
  encodeURIComponent and decodeURIComponent on the single-byte range);
* the session-manager state machine: connect, disconnect, send, and the
  startup auto-reconnect effect, with device input and output outcomes made
  explicit parameters, and I/O failure branches modelled as outcome values
  (every handler is a total function, reflecting that the source catches
  the corresponding exceptions);
* the useSerialContext hook fallback value returned without a provider.

Strings from the wire are modelled as `List Char`; bytes as `Nat`
(TextDecoder on the ASCII range maps byte b to code point b, each chunk
being decoded independently exactly as the source does).
-/

namespace TriageID

/-! ## Line framer (serial-context.tsx readLoop, lines 107-120)

`readBuffer += decoded; lines = readBuffer.split(/\r?\n/);
readBuffer = lines.pop() || ""` and then each popped line is trimmed and
empty results are skipped. -/

/-- Prepend a character to the first segment of a split result (used to
state the recursion of `splitRN`). -/
def consHead (c : Char) : List (List Char) → List (List Char)
  | [] => [[c]]
  | seg :: segs => (c :: seg) :: segs

/-- JavaScript `String.prototype.split(/\r?\n/)`: a separator is the two
characters CR LF when CR is immediately followed by LF, otherwise a single
LF; a lone CR never separates. Returns the list of segments (always at
least one, possibly empty). -/
def splitRN : List Char → List (List Char)
  | [] => [[]]
  | ['\r'] => [['\r']]
  | '\r' :: '\n' :: rest => [] :: splitRN rest
  | '\r' :: c :: rest => consHead '\r' (splitRN (c :: rest))
  | '\n' :: rest => [] :: splitRN rest
  | c :: rest => consHead c (splitRN rest)

/-- The last segment of a split result, i.e. what `lines.pop() || ""`
leaves in `readBuffer`. -/
def lastOf : List (List Char) → List Char
  | [] => []
  | [s] => s
  | _ :: s :: t => lastOf (s :: t)

/-- JavaScript whitespace as recognised by `String.prototype.trim` and by
the regex class `\s`, restricted to the code points this device protocol
can produce (ASCII whitespace plus NBSP and the BOM). -/
def isJsWs (c : Char) : Bool :=
  c == ' ' || c == '\t' || c == '\n' || c == '\r' || c == '\x0b' || c == '\x0c' ||
    c == Char.ofNat 160 || c == Char.ofNat 65279

/-- JavaScript `String.prototype.trim`. -/
def trimChars (l : List Char) : List Char :=
  ((l.dropWhile isJsWs).reverse.dropWhile isJsWs).reverse

/-- The complete lines the read loop hands to the extractor after one
buffer split: every terminated segment, trimmed, with empty results
discarded (`const t = line.trim(); if (!t) continue`). -/
def emitted (w : List Char) : List (List Char) :=
  ((splitRN w).dropLast.map trimChars).filter (fun t => !t.isEmpty)

/-- One framer step: append the decoded chunk to the held buffer, emit the
trimmed non-empty terminated segments, retain the last (unterminated)
segment as the new buffer. -/
def feed (buf chunk : List Char) : List (List Char) × List Char :=
  (emitted (buf ++ chunk), lastOf (splitRN (buf ++ chunk)))

/-- Feed a sequence of chunks one by one, concatenating the emitted lines. -/
def feedList (buf : List Char) : List (List Char) → List (List Char) × List Char
  | [] => ([], buf)
  | ch :: rest =>
    let p := feed buf ch
    let q := feedList p.2 rest
    (p.1 ++ q.1, q.2)

/-- Model of `new TextDecoder().decode(value)` on the ASCII range: byte b becomes
code point b. Each chunk is decoded independently, exactly as the source
constructs a fresh TextDecoder per chunk. -/
def decodeChunk (bs : List Nat) : List Char := bs.map Char.ofNat

/-- One framer step at byte level. -/
def feedBytes (buf : List Char) (chunk : List Nat) : List (List Char) × List Char :=
  feed buf (decodeChunk chunk)

/-- Feed a sequence of byte chunks one by one. -/
def feedBytesList (buf : List Char) : List (List Nat) → List (List Char) × List Char
  | [] => ([], buf)
  | ch :: rest =>
    let p := feedBytes buf ch
    let q := feedBytesList p.2 rest
    (p.1 ++ q.1, q.2)

/-! ## Tag-id extractor (serial-context.tsx lines 6-8 and 118-128;
useSerial variant in the collected hook source, lines 100-107) -/

/-- If `pre` is a prefix of `s`, return the remainder of `s`. -/
def chopStart : List Char → List Char → Option (List Char)
  | [], s => some s
  | _ :: _, [] => none
  | p :: ps, c :: cs => if c = p then chopStart ps cs else none

/-- Attempt `USER_ID_REGEX = /User ID:\s*"([^"]*)"/` at the start of the
given text: the literal `User ID:`, then any run of whitespace, then a
double quote, then the capture (every character up to the next double
quote, which must exist). Returns the capture. -/
def matchUserIdAt (cs : List Char) : Option (List Char) :=
  match chopStart ("User ID:".toList) cs with
  | none => none
  | some r =>
    match r.dropWhile isJsWs with
    | '"' :: rest =>
      match rest.dropWhile (fun c => c != '"') with
      | _ :: _ => some (rest.takeWhile (fun c => c != '"'))
      | [] => none
    | _ => none

/-- Model of `t.match(USER_ID_REGEX)`: the regex is unanchored, so the engine tries
each start position from the left and returns the first match. -/
def matchUserIdRegex : List Char → Option (List Char)
  | [] => none
  | c :: rest =>
    match matchUserIdAt (c :: rest) with
    | some v => some v
    | none => matchUserIdRegex rest

/-- Model of `OK_READ_REGEX = /^OK\|READ\|(.+)$/`: anchored at both ends, the
capture is one or more characters, each matched by `.` (any character
except a line terminator). -/
def matchOkReadRegex (t : List Char) : Option (List Char) :=
  match chopStart ("OK|READ|".toList) t with
  | none => none
  | some r =>
    if r.isEmpty then none
    else if r.all (fun c => c != '\n' && c != '\r' &&
                     c != Char.ofNat 8232 && c != Char.ofNat 8233)
    then some r
    else none

/-- Per-line body of the serial-context readLoop (lines 118-128): trim the
line and skip it when empty; try the menu-mode regex, else the command-mode
regex; trim the capture; invoke the consumer only when the resulting id is
non-null and non-empty. Returns the id delivered to the consumer, if any. -/
def contextLineEvent (line : List Char) : Option (List Char) :=
  let t := trimChars line
  if t.isEmpty then none
  else
    match matchUserIdRegex t with
    | some v =>
      let id := trimChars v
      if id.isEmpty then none else some id
    | none =>
      match matchOkReadRegex t with
      | some v =>
        let id := trimChars v
        if id.isEmpty then none else some id
      | none => none

/-- Per-line body of the older useSerial readLoop (lines 100-107 of the
hook source): only the menu-mode regex is known, and the trimmed capture is
delivered unconditionally, including when it is empty. -/
def useSerialLineEvent (line : List Char) : Option (List Char) :=
  let t := trimChars line
  if t.isEmpty then none
  else
    match matchUserIdRegex t with
    | some v => some (trimChars v)
    | none => none

/-! ## Persisted device filter store (serial-context.tsx lines 9-57)

The browser cookie jar is abstracted to the value stored under the single
key `triageid_serial_filter` (`Option (List Char)`, the raw encoded value):
the component reads and writes only that key, and the max-age and path
attributes are browser metadata, not part of the value. A deleted or
expired cookie is `none`. -/

/-- Device identity as stored in the filter: the two numeric fields of a
Web Serial port filter. JSON numbers are modelled as integers (the only
numbers this component ever stores are USB ids). -/
structure SerialPortFilter where
  usbVendorId : Int
  usbProductId : Int
deriving DecidableEq

/-- JSON values, as produced by `JSON.parse` on the fragment of JSON this
component can meet: null, booleans, integer numbers, strings without
escape sequences, arrays and objects. -/
inductive JsVal where
  | jnull : JsVal
  | jbool : Bool → JsVal
  | jnum : Int → JsVal
  | jstr : List Char → JsVal
  | jarr : List JsVal → JsVal
  | jobj : List (List Char × JsVal) → JsVal

/-- JSON insignificant whitespace. -/
def jsonWs (c : Char) : Bool :=
  c == ' ' || c == '\t' || c == '\n' || c == '\r'

/-- Body of a JSON string after the opening quote: every character up to
the closing quote (escape sequences are not modelled; this component never
stores any). Fails when the closing quote is missing. -/
def parseStringBody (cs : List Char) : Option (List Char × List Char) :=
  match cs.dropWhile (fun c => c != '"') with
  | _ :: rest => some (cs.takeWhile (fun c => c != '"'), rest)
  | [] => none

/-- Digit run to a natural number. -/
def digitsToNat (ds : List Char) : Nat :=
  ds.foldl (fun acc c => 10 * acc + (c.toNat - 48)) 0

/-- A JSON integer number: an optional minus sign and a non-empty digit
run (fractions and exponents are not modelled; this component never stores
any). -/
def parseNumber (cs : List Char) : Option (JsVal × List Char) :=
  match cs with
  | '-' :: rest =>
    let ds := rest.takeWhile Char.isDigit
    if ds.isEmpty then none
    else some (.jnum (-(digitsToNat ds : Int)), rest.drop ds.length)
  | _ =>
    let ds := cs.takeWhile Char.isDigit
    if ds.isEmpty then none
    else some (.jnum (digitsToNat ds), cs.drop ds.length)

mutual

/-- Recursive-descent JSON value parser (fuelled; the fuel is an upper
bound on nesting depth, supplied by `jsonParse`). Models `JSON.parse` on
the fragment described at `JsVal`. -/
def parseVal : Nat → List Char → Option (JsVal × List Char)
  | 0, _ => none
  | fuel + 1, cs0 =>
    match cs0.dropWhile jsonWs with
    | [] => none
    | '"' :: rest =>
      match parseStringBody rest with
      | some p => some (.jstr p.1, p.2)
      | none => none
    | '[' :: rest =>
      match rest.dropWhile jsonWs with
      | ']' :: rest2 => some (.jarr [], rest2)
      | _ => parseArrTail fuel rest []
    | '\x7b' :: rest =>
      match rest.dropWhile jsonWs with
      | '\x7d' :: rest2 => some (.jobj [], rest2)
      | _ => parseObjTail fuel rest []
    | c :: rest =>
      match chopStart ("true".toList) (c :: rest) with
      | some r => some (.jbool true, r)
      | none =>
        match chopStart ("false".toList) (c :: rest) with
        | some r => some (.jbool false, r)
        | none =>
          match chopStart ("null".toList) (c :: rest) with
          | some r => some (.jnull, r)
          | none => parseNumber (c :: rest)

/-- Elements of a JSON array after the opening bracket. -/
def parseArrTail : Nat → List Char → List JsVal → Option (JsVal × List Char)
  | 0, _, _ => none
  | fuel + 1, cs, acc =>
    match parseVal fuel cs with
    | none => none
    | some (v, rest) =>
      match rest.dropWhile jsonWs with
      | ',' :: rest2 => parseArrTail fuel rest2 (acc ++ [v])
      | ']' :: rest2 => some (.jarr (acc ++ [v]), rest2)
      | _ => none

/-- Members of a JSON object after the opening brace. -/
def parseObjTail : Nat → List Char → List (List Char × JsVal) → Option (JsVal × List Char)
  | 0, _, _ => none
  | fuel + 1, cs, acc =>
    match cs.dropWhile jsonWs with
    | '"' :: rest =>
      match parseStringBody rest with
      | none => none
      | some (key, rest2) =>
        match rest2.dropWhile jsonWs with
        | ':' :: rest3 =>
          match parseVal fuel rest3 with
          | none => none
          | some (v, rest4) =>
            match rest4.dropWhile jsonWs with
            | ',' :: rest5 => parseObjTail fuel rest5 (acc ++ [(key, v)])
            | '\x7d' :: rest5 => some (.jobj (acc ++ [(key, v)]), rest5)
            | _ => none
        | _ => none
    | _ => none

end

/-- Model of `JSON.parse`: parse one value and require that only
whitespace remains; `none` models the thrown SyntaxError. -/
def jsonParse (cs : List Char) : Option JsVal :=
  match parseVal (cs.length + 1) cs with
  | some (v, rest) => if (rest.dropWhile jsonWs).isEmpty then some v else none
  | none => none

/-- Property access `parsed?.key` on a parse result: defined only on
objects; for duplicate keys `JSON.parse` keeps the last occurrence. -/
def jsGetField (j : JsVal) (key : List Char) : Option JsVal :=
  match j with
  | .jobj fields => ((fields.reverse.find? (fun kv => kv.1 = key)).map (fun kv => kv.2))
  | _ => none

/-- Whether a parse result carries numeric `usbVendorId` and
`usbProductId` fields, i.e. whether the typeof checks of
`getSerialFilterFromCookie` accept it. -/
def hasNumericIds (j : JsVal) : Bool :=
  match jsGetField j ("usbVendorId".toList), jsGetField j ("usbProductId".toList) with
  | some (.jnum _), some (.jnum _) => true
  | _, _ => false

/-- Decimal digits of a natural number. -/
def natChars (n : Nat) : List Char := Nat.toDigits 10 n

/-- Decimal rendering of an integer as `JSON.stringify` renders it. -/
def intChars (n : Int) : List Char :=
  if n < 0 then '-' :: natChars n.natAbs else natChars n.toNat

/-- Model of `JSON.stringify({usbVendorId: v, usbProductId: p})`. -/
def jsonStringifyFilter (f : SerialPortFilter) : List Char :=
  ("\x7b\"usbVendorId\":".toList) ++ intChars f.usbVendorId ++
    (",\"usbProductId\":".toList) ++ intChars f.usbProductId ++ ("\x7d".toList)

/-- Characters `encodeURIComponent` leaves unescaped. -/
def uriUnreserved (c : Char) : Bool :=
  c.isAlphanum || c == '-' || c == '_' || c == '.' || c == '!' || c == '~' ||
    c == '*' || c == Char.ofNat 39 || c == '(' || c == ')'

/-- Uppercase hexadecimal digit. -/
def hexDigitChar (n : Nat) : Char :=
  if n < 10 then Char.ofNat (48 + n) else Char.ofNat (55 + n)

/-- Model of `encodeURIComponent` on the single-byte range (the only range this
component stores: JSON text of two integer fields). -/
def uriEncode (cs : List Char) : List Char :=
  (cs.map (fun c =>
    if uriUnreserved c then [c]
    else ['%', hexDigitChar (c.toNat / 16), hexDigitChar (c.toNat % 16)])).flatten

/-- Value of a hexadecimal digit. -/
def hexVal (c : Char) : Option Nat :=
  if c.isDigit then some (c.toNat - 48)
  else if 65 ≤ c.toNat && c.toNat ≤ 70 then some (c.toNat - 55)
  else if 97 ≤ c.toNat && c.toNat ≤ 102 then some (c.toNat - 87)
  else none

/-- Model of `decodeURIComponent` on the single-byte range: a percent sign must be
followed by two hexadecimal digits whose value is below 128 (multi-byte
UTF-8 sequences, never produced by this component, are treated as the
malformed case); `none` models the thrown URIError. -/
def uriDecode : List Char → Option (List Char)
  | [] => some []
  | '%' :: a :: b :: rest =>
    match hexVal a, hexVal b with
    | some ha, some hb =>
      if 16 * ha + hb < 128 then
        match uriDecode rest with
        | some r => some (Char.ofNat (16 * ha + hb) :: r)
        | none => none
      else none
    | _, _ => none
  | ['%'] => none
  | ['%', _] => none
  | c :: rest =>
    match uriDecode rest with
    | some r => some (c :: r)
    | none => none

/-- Source `setSerialFilterCookie` (lines 47-52): overwrite the stored value with
the encoded JSON of the filter. -/
def setSerialFilterCookie (_jar : Option (List Char)) (f : SerialPortFilter) :
    Option (List Char) :=
  some (uriEncode (jsonStringifyFilter f))

/-- Source `clearSerialFilterCookie` (lines 54-57): max-age zero deletes the
cookie. -/
def clearSerialFilterCookie (_jar : Option (List Char)) : Option (List Char) :=
  none

/-- Source `getSerialFilterFromCookie` (lines 34-45): read the raw stored value,
decode and parse it, and accept it only when both `usbVendorId` and
`usbProductId` are numbers; every failure degrades to `none` (the source
catches the parse and decode exceptions). -/
def getSerialFilterFromCookie (jar : Option (List Char)) : Option SerialPortFilter :=
  match jar with
  | none => none
  | some raw =>
    match uriDecode raw with
    | none => none
    | some txt =>
      match jsonParse txt with
      | none => none
      | some j =>
        match jsGetField j ("usbVendorId".toList), jsGetField j ("usbProductId".toList) with
        | some (.jnum v), some (.jnum p) => some ⟨v, p⟩
        | _, _ => none

/-! ## Session manager state machine (serial-context.tsx lines 72-242)

Device I/O results (which port the user selects, whether open succeeds,
whether teardown steps throw) are explicit outcome parameters; each handler
is a total function on the state, reflecting that the source catches every
device exception. `openDevs` records the ids of devices successfully
opened and not yet closed, to state the single-open-session invariant. -/

/-- A Web Serial port as the session manager sees it: an identity for the
physical device and the optional vendor and product info reported by
`getInfo` (`none` models a missing `getInfo` or missing numeric fields,
which the source guards for). -/
structure SerialPort where
  id : Nat
  info : Option SerialPortFilter
deriving DecidableEq

/-- State owned by the SerialProvider: the React state fields, the refs,
the persisted cookie value, plus the bookkeeping fields `openDevs`,
`readLoopOn` (a read loop was started) and `transmitted` (texts written to
the device, in order). -/
structure SMState where
  isConnected : Bool
  isReconnecting : Bool
  error : Option String
  portRef : Option SerialPort
  readerRef : Option Nat
  writerRef : Option Nat
  abortFlag : Bool
  cookie : Option (List Char)
  openDevs : List Nat
  readLoopOn : Bool
  transmitted : List (List Char)
deriving DecidableEq

/-- Provider state at mount, with whatever cookie value persists from an
earlier session. -/
def initWithCookie (c : Option (List Char)) : SMState :=
  { isConnected := false
    isReconnecting := false
    error := none
    portRef := none
    readerRef := none
    writerRef := none
    abortFlag := false
    cookie := c
    openDevs := []
    readLoopOn := false
    transmitted := [] }

/-- Source `openPortAndRead` (lines 91-139): store the port, acquire writer and
reader, set Connected, clear the error, persist the device identity when
the port reports one, and start the read loop. -/
def openPortAndRead (s : SMState) (port : SerialPort) : SMState :=
  { s with
    portRef := some port
    writerRef := some port.id
    readerRef := some port.id
    isConnected := true
    error := none
    cookie :=
      match port.info with
      | some f => setSerialFilterCookie s.cookie f
      | none => s.cookie
    readLoopOn := true }

/-- Outcome of one `connect()` call: Web Serial absent; `requestPort` or
`open` threw (with the surfaced message); or a port was selected and
opened. -/
inductive ConnectOutcome where
  | noSerial : ConnectOutcome
  | requestFailed : String → ConnectOutcome
  | openFailed : SerialPort → String → ConnectOutcome
  | opened : SerialPort → ConnectOutcome
deriving DecidableEq

/-- Source `connect` (lines 142-161). The saved filter is only a hint passed to
`requestPort` and does not change the state. Both failure outcomes run the
catch block: clear the persisted filter, set the error message, set
disconnected. -/
def connect (s : SMState) : ConnectOutcome → SMState
  | .noSerial =>
    { s with error := some "Web Serial not supported. Use Chrome or Edge." }
  | .requestFailed msg =>
    { s with
      abortFlag := false
      cookie := clearSerialFilterCookie s.cookie
      error := some msg
      isConnected := false }
  | .openFailed _ msg =>
    { s with
      abortFlag := false
      cookie := clearSerialFilterCookie s.cookie
      error := some msg
      isConnected := false }
  | .opened port =>
    openPortAndRead
      { s with abortFlag := false, error := none, openDevs := port.id :: s.openDevs }
      port

/-- Which teardown steps of `disconnect` throw (each is caught and
ignored by the source). -/
structure TeardownFaults where
  cancelFails : Bool
  writerCloseFails : Bool
  portCloseFails : Bool
deriving DecidableEq

/-- Source `disconnect` (lines 214-242): set the abort flag, cancel the reader,
close the writer, close the port — each step only if the ref is held, each
failure swallowed — then set Disconnected and clear the error. The closed
device leaves `openDevs`. -/
def disconnect (s : SMState) (_f : TeardownFaults) : SMState :=
  { s with
    abortFlag := true
    readerRef := none
    writerRef := none
    portRef := none
    isConnected := false
    error := none
    openDevs :=
      match s.portRef with
      | some p => s.openDevs.erase p.id
      | none => s.openDevs }

/-- The transmitted text: `text.endsWith("\n") ? text : text + "\n"`. -/
def appendNL (text : List Char) : List Char :=
  if text.getLast? = some '\n' then text else text ++ ['\n']

/-- Source `send` (lines 208-212): a no-op unless a writer is held; otherwise
write the text with a newline appended when absent. -/
def send (s : SMState) (text : List Char) : SMState :=
  match s.writerRef with
  | none => s
  | some _ => { s with transmitted := s.transmitted ++ [appendNL text] }

/-- The loop over `getPorts()` results: the first port whose reported info
equals the saved filter (lines 174-179). -/
def findMatch (f : SerialPortFilter) : List SerialPort → Option SerialPort
  | [] => none
  | p :: ps => if p.info = some f then some p else findMatch f ps

/-- Outcome of the startup reconnect effect: `getPorts` itself may fail;
otherwise it yields the previously authorized ports, and `openOk` tells
whether `open` on the first matching port succeeds. -/
inductive ReconnectOutcome where
  | getPortsFailed : ReconnectOutcome
  | getPortsOk : List SerialPort → Bool → ReconnectOutcome
deriving DecidableEq

/-- The startup auto-reconnect effect (lines 163-206), in the un-cancelled
run (the component stays mounted). With no usable saved filter it returns
at once; otherwise it briefly enters Reconnecting (the transient phase is
not an observable final state here), searches the authorized ports for the
saved identity, opens the first match, and on open failure clears the
persisted filter; in every branch `isReconnecting` ends false. -/
def reconnectEffect (s : SMState) (o : ReconnectOutcome) : SMState :=
  match getSerialFilterFromCookie s.cookie with
  | none => s
  | some f =>
    match o with
    | .getPortsFailed => { s with isReconnecting := false }
    | .getPortsOk ports openOk =>
      match findMatch f ports with
      | none => { s with isReconnecting := false }
      | some p =>
        if openOk then
          { openPortAndRead
              { s with abortFlag := false, openDevs := p.id :: s.openDevs } p with
            isReconnecting := false }
        else
          { s with cookie := clearSerialFilterCookie s.cookie, isReconnecting := false }

/-- User-driven session-manager actions after mount. -/
inductive Act where
  | connectA : ConnectOutcome → Act
  | disconnectA : TeardownFaults → Act
  | sendA : List Char → Act
deriving DecidableEq

/-- Dispatch one action. -/
def stepAct (s : SMState) : Act → SMState
  | .connectA o => connect s o
  | .disconnectA f => disconnect s f
  | .sendA t => send s t

/-- Run a sequence of actions. -/
def runActs (s : SMState) : List Act → SMState
  | [] => s
  | a :: rest => runActs (stepAct s a) rest

/-- A trace is connect-guarded when every `connect` call is made while the
state is not Connected. -/
def connectGuarded (s : SMState) : List Act → Bool
  | [] => true
  | a :: rest =>
    (match a with
     | .connectA _ => !s.isConnected
     | _ => true) && connectGuarded (stepAct s a) rest

/-- The single-open-session bookkeeping invariant: the open devices are
exactly the device of the held port, and Connected coincides with holding
a port. -/
def smInv (s : SMState) : Prop :=
  s.openDevs = (match s.portRef with
    | some p => [p.id]
    | none => []) ∧
  s.isConnected = s.portRef.isSome

/-! ## useSerialContext fallback (lines 262-277)

The operations of a context value are modelled by their effect on the
session state; the fallback operations of the provider-less hook are
constant functions that do nothing. -/

/-- The value exposed through the SerialContext. -/
structure SerialContextValue where
  isSupported : Bool
  isConnected : Bool
  isReconnecting : Bool
  error : Option String
  connect : SMState → SMState
  disconnect : SMState → SMState
  send : List Char → SMState → SMState
  setOnTagRead : SMState → SMState

/-- The inert stub `useSerialContext` builds when no provider is above the
caller: all flags false, no error, and every operation a no-op. -/
def fallbackContextValue : SerialContextValue :=
  { isSupported := false
    isConnected := false
    isReconnecting := false
    error := none
    connect := fun s => s
    disconnect := fun s => s
    send := fun _ s => s
    setOnTagRead := fun s => s }

/-- Source `useSerialContext`: return the provided context value, or the inert
stub when none is provided (the source never throws here). -/
def useSerialContext (ctx : Option SerialContextValue) : SerialContextValue :=
  match ctx with
  | some v => v
  | none => fallbackContextValue

/-! ## Framer lemmas: chunk-boundary independence (Claim C2) -/

theorem consHead_ne_nil (c : Char) (l : List (List Char)) : consHead c l ≠ [] := by
  cases l <;> simp [consHead]

theorem splitRN_ne_nil (l : List Char) : splitRN l ≠ [] := by
  induction l using splitRN.induct with
  | case1 => simp [splitRN]
  | case2 => simp [splitRN]
  | case3 rest ih => simp [splitRN]
  | case4 c rest h ih => simp only [splitRN]; exact consHead_ne_nil _ _
  | case5 rest ih => simp [splitRN]
  | case6 c rest h1 h2 h3 h4 ih => simp only [splitRN]; exact consHead_ne_nil _ _

theorem splitRN_cons_r (c : Char) (w : List Char) (hcn : c ≠ '\n') :
    splitRN ('\r' :: c :: w) = consHead '\r' (splitRN (c :: w)) := by
  simp only [splitRN]

theorem splitRN_cons_other (c : Char) (w : List Char) (hcr : c ≠ '\r') (hcn : c ≠ '\n') :
    splitRN (c :: w) = consHead c (splitRN w) := by
  rw [splitRN.eq_6] <;> simp_all

theorem splitRN_single (w : List Char) :
    ∀ s, splitRN w = [s] → w = s := by
  induction w using splitRN.induct with
  | case1 => intro s hs; simp [splitRN] at hs; exact hs.symm
  | case2 => intro s hs; simp [splitRN] at hs; exact hs
  | case3 rest ih =>
    intro s hs
    simp [splitRN] at hs
    exact absurd hs.2 (splitRN_ne_nil rest)
  | case4 c rest h ih =>
    intro s hs
    simp only [splitRN] at hs
    rcases hS : splitRN (c :: rest) with _ | ⟨x, t⟩
    · exact absurd hS (splitRN_ne_nil _)
    · rcases t with _ | ⟨y, t⟩
      · rw [hS] at hs
        simp [consHead] at hs
        have := ih x hS
        subst this
        simp [← hs]
      · rw [hS] at hs; simp [consHead] at hs
  | case5 rest ih =>
    intro s hs
    simp [splitRN] at hs
    exact absurd hs.2 (splitRN_ne_nil rest)
  | case6 c rest h1 h2 h3 h4 ih =>
    intro s hs
    simp only [splitRN] at hs
    rcases hS : splitRN rest with _ | ⟨x, t⟩
    · exact absurd hS (splitRN_ne_nil _)
    · rcases t with _ | ⟨y, t⟩
      · rw [hS] at hs
        simp [consHead] at hs
        have := ih x hS
        subst this
        simp [← hs]
      · rw [hS] at hs; simp [consHead] at hs

theorem lastOf_cons_ne (a : List Char) (B : List (List Char)) (h : B ≠ []) :
    lastOf (a :: B) = lastOf B := by
  rcases B with _ | ⟨x, t⟩
  · exact absurd rfl h
  · rfl

theorem lastOf_append_ne (A B : List (List Char)) (h : B ≠ []) :
    lastOf (A ++ B) = lastOf B := by
  induction A with
  | nil => rfl
  | cons a A ih =>
    rw [List.cons_append, lastOf_cons_ne a (A ++ B) (by simp [h]), ih]

theorem dropLast_cons_ne (a : List Char) (B : List (List Char)) (h : B ≠ []) :
    (a :: B).dropLast = a :: B.dropLast := by
  rcases B with _ | ⟨x, t⟩
  · exact absurd rfl h
  · rfl

theorem dropLast_append_ne (A B : List (List Char)) (h : B ≠ []) :
    (A ++ B).dropLast = A ++ B.dropLast := by
  induction A with
  | nil => rfl
  | cons a A ih =>
    rw [List.cons_append, dropLast_cons_ne a (A ++ B) (by simp [h]), ih, List.cons_append]

theorem consHead_append_ne (a : Char) (A B : List (List Char)) (h : A ≠ []) :
    consHead a (A ++ B) = consHead a A ++ B := by
  rcases A with _ | ⟨x, t⟩
  · exact absurd rfl h
  · simp [consHead]

theorem consHead_single (a : Char) (s : List Char) : consHead a [s] = [a :: s] := rfl

theorem dropLast_cons_cons_ne_nil (x y : List Char) (t : List (List Char)) :
    (x :: y :: t).dropLast ≠ [] := by
  cases t <;> simp [List.dropLast]

theorem consHead_dropLast (a : Char) (x y : List Char) (t : List (List Char)) :
    (consHead a (x :: y :: t)).dropLast = consHead a ((x :: y :: t).dropLast) := by
  simp [consHead, dropLast_cons_ne]

theorem consHead_lastOf (a : Char) (x y : List Char) (t : List (List Char)) :
    lastOf (consHead a (x :: y :: t)) = lastOf (x :: y :: t) := by
  simp [consHead, lastOf_cons_ne]

theorem splitRN_append (u v : List Char) :
    splitRN (u ++ v) = (splitRN u).dropLast ++ splitRN (lastOf (splitRN u) ++ v) := by
  induction u using splitRN.induct with
  | case1 => simp [splitRN, lastOf]
  | case2 => simp [splitRN, lastOf]
  | case3 rest ih =>
    have hne := splitRN_ne_nil rest
    simp only [List.cons_append, splitRN, List.append_eq] at *
    rw [ih, dropLast_cons_ne _ _ hne, lastOf_cons_ne _ _ hne, List.cons_append]
  | case5 rest ih =>
    have hne := splitRN_ne_nil rest
    simp only [List.cons_append, splitRN, List.append_eq] at *
    rw [ih, dropLast_cons_ne _ _ hne, lastOf_cons_ne _ _ hne, List.cons_append]
  | case4 c rest h ih =>
    have hcn : c ≠ '\n' := fun hc => h hc
    simp only [List.cons_append]
    rw [splitRN_cons_r c (rest ++ v) hcn, splitRN_cons_r c rest hcn]
    rcases hS : splitRN (c :: rest) with _ | ⟨x, t⟩
    · exact absurd hS (splitRN_ne_nil _)
    · rcases t with _ | ⟨y, t⟩
      · -- single segment: x = c :: rest, so x starts with c ≠ '\n'
        have hxc : c :: rest = x := splitRN_single _ x hS
        simp only [consHead_single, List.dropLast_single, List.nil_append, lastOf]
        rw [← hxc, List.cons_append, List.cons_append, splitRN_cons_r c (rest ++ v) hcn]
      · rw [hS] at ih
        rw [List.cons_append] at ih
        rw [ih]
        rw [consHead_append_ne _ _ _ (dropLast_cons_cons_ne_nil x y t)]
        rw [consHead_dropLast, consHead_lastOf]
  | case6 c rest h1 h2 h3 h4 ih =>
    have hcn : c ≠ '\n' := fun hc => h4 hc
    have hcr : c ≠ '\r' := by
      intro hc
      rcases rest with _ | ⟨d, w⟩
      · exact h1 hc rfl
      · exact h3 d w hc rfl
    simp only [List.cons_append]
    rw [splitRN_cons_other c (rest ++ v) hcr hcn, splitRN_cons_other c rest hcr hcn]
    rcases hS : splitRN rest with _ | ⟨x, t⟩
    · exact absurd hS (splitRN_ne_nil _)
    · rcases t with _ | ⟨y, t⟩
      · have hxc : rest = x := splitRN_single _ x hS
        simp only [consHead_single, List.dropLast_single, List.nil_append, lastOf]
        rw [← hxc, List.cons_append, splitRN_cons_other c (rest ++ v) hcr hcn]
      · rw [hS] at ih
        rw [ih]
        rw [consHead_append_ne _ _ _ (dropLast_cons_cons_ne_nil x y t)]
        rw [consHead_dropLast, consHead_lastOf]


theorem lastOf_splitRN_noSep (w : List Char) :
    splitRN (lastOf (splitRN w)) = [lastOf (splitRN w)] := by
  induction w using splitRN.induct with
  | case1 => simp [splitRN, lastOf]
  | case2 => simp [splitRN, lastOf]
  | case3 rest ih =>
    have hne := splitRN_ne_nil rest
    simp only [splitRN]
    rw [lastOf_cons_ne _ _ hne]
    exact ih
  | case5 rest ih =>
    have hne := splitRN_ne_nil rest
    simp only [splitRN]
    rw [lastOf_cons_ne _ _ hne]
    exact ih
  | case4 c rest h ih =>
    have hcn : c ≠ '\n' := fun hc => h hc
    rw [splitRN_cons_r c rest hcn]
    rcases hS : splitRN (c :: rest) with _ | ⟨x, t⟩
    · exact absurd hS (splitRN_ne_nil _)
    · rcases t with _ | ⟨y, t⟩
      · have hxc : c :: rest = x := splitRN_single _ x hS
        simp only [consHead_single, lastOf]
        rw [← hxc, splitRN_cons_r c rest hcn, hS, consHead_single, hxc]
      · rw [consHead_lastOf]
        rw [hS] at ih
        rw [lastOf_cons_ne _ _ (by simp)] at ih ⊢
        exact ih
  | case6 c rest h1 h2 h3 h4 ih =>
    have hcn : c ≠ '\n' := fun hc => h4 hc
    have hcr : c ≠ '\r' := by
      intro hc
      rcases rest with _ | ⟨d, w⟩
      · exact h1 hc rfl
      · exact h3 d w hc rfl
    rw [splitRN_cons_other c rest hcr hcn]
    rcases hS : splitRN rest with _ | ⟨x, t⟩
    · exact absurd hS (splitRN_ne_nil _)
    · rcases t with _ | ⟨y, t⟩
      · have hxc : rest = x := splitRN_single _ x hS
        simp only [consHead_single, lastOf]
        rw [← hxc, splitRN_cons_other c rest hcr hcn, hS, consHead_single, hxc]
      · rw [consHead_lastOf]
        rw [hS] at ih
        rw [lastOf_cons_ne _ _ (by simp)] at ih ⊢
        exact ih

theorem feed_append (buf c1 c2 : List Char) :
    feed buf (c1 ++ c2) =
      ((feed buf c1).1 ++ (feed (feed buf c1).2 c2).1, (feed (feed buf c1).2 c2).2) := by
  have key := splitRN_append (buf ++ c1) c2
  have hBne := splitRN_ne_nil (lastOf (splitRN (buf ++ c1)) ++ c2)
  simp only [feed, emitted, Prod.mk.injEq]
  constructor
  · rw [← List.append_assoc, key, dropLast_append_ne _ _ hBne, List.map_append, List.filter_append]
  · rw [← List.append_assoc, key, lastOf_append_ne _ _ hBne]

theorem feedList_join_aux (chunks : List (List Char)) :
    ∀ buf, splitRN buf = [buf] → feedList buf chunks = feed buf chunks.flatten := by
  induction chunks with
  | nil =>
    intro buf h
    simp [feedList, feed, emitted, h, lastOf]
  | cons c cs ih =>
    intro buf h
    have hbuf' := lastOf_splitRN_noSep (buf ++ c)
    have ih' := ih (feed buf c).2 hbuf'
    simp only [feedList, List.flatten_cons]
    rw [feed_append buf c cs.flatten, ih']

theorem feedList_join (chunks : List (List Char)) :
    feedList [] chunks = feed [] chunks.flatten :=
  feedList_join_aux chunks [] rfl


theorem feedBytesList_eq_feedList (cs : List (List Nat)) :
    ∀ buf, feedBytesList buf cs = feedList buf (cs.map decodeChunk) := by
  induction cs with
  | nil => intro buf; rfl
  | cons c rest ih =>
    intro buf
    simp only [feedBytesList, feedList, List.map_cons, feedBytes]
    rw [ih]

/-- Claim C2: for every ASCII byte stream and every way of cutting it into
chunks, feeding the line framer the chunks one by one yields exactly the
same ordered sequence of complete (trimmed, non-empty) lines — and the same
final partial-line remainder — as feeding the whole stream in one chunk. -/
theorem C2_chunk_boundary_independence (chunks : List (List Nat))
    (hascii : ∀ b ∈ chunks.flatten, b < 128) :
    feedBytesList [] chunks = feedBytes [] chunks.flatten := by
  rw [feedBytesList_eq_feedList, feedList_join, feedBytes, decodeChunk,
    List.map_flatten]
  rfl

/-- Witness for C2 at a concrete chunking of the stream
`"OK|READ|AB\r\nUser\n"` cut inside the CR LF pair. -/
theorem C2_witness :
    (∀ b ∈ ([[79, 75, 10, 85, 13], [10, 66, 10], [67]] : List (List Nat)).flatten,
        b < 128) ∧
    feedBytesList [] [[79, 75, 10, 85, 13], [10, 66, 10], [67]] =
      feedBytes [] ([[79, 75, 10, 85, 13], [10, 66, 10], [67]] : List (List Nat)).flatten :=
  ⟨by decide, C2_chunk_boundary_independence _ (by decide)⟩

/-! ## Tag-id extractor (Claim C1) -/

/-- Claim C1 counterexample: in the session-manager extractor (the
serial-context readLoop, the variant that recognises both wire shapes), the
menu-mode line with an empty captured value produces NO consumer event —
the guard `id !== ""` suppresses the empty-string sentinel — contradicting
the claimed table row that the event fires with value "". -/
theorem C1_cex : contextLineEvent (("User ID: " ++ "\"\"").toList) = none := by
  decide

/-- Claim C1 (amended): the reference table for the serial-context
extractor holds with the empty-capture rows suppressed in BOTH shapes:
extract of `User ID: "AB12"` gives the event AB12; extract of
`User ID: ""` gives no event; extract of `OK|READ|AB12` gives AB12;
extract of `OK|READ|` gives no event; unmatched lines give no event; and
in general an empty trimmed capture of the menu-mode shape delivers
nothing in this variant. Only the older useSerial readLoop variant (which
recognises no command shape) delivers the empty-string sentinel for a
menu-mode line with empty captured value. -/
theorem C1_extract_table :
    contextLineEvent (("User ID: " ++ "\"AB12\"").toList) = some ("AB12".toList) ∧
    contextLineEvent (("User ID: " ++ "\"\"").toList) = none ∧
    contextLineEvent ("OK|READ|AB12".toList) = some ("AB12".toList) ∧
    contextLineEvent ("OK|READ|".toList) = none ∧
    contextLineEvent ("garbage line".toList) = none ∧
    (∀ line, matchUserIdRegex (trimChars line) = none →
      matchOkReadRegex (trimChars line) = none → contextLineEvent line = none) ∧
    (∀ line v, matchUserIdRegex (trimChars line) = some v →
      (trimChars v).isEmpty = true → contextLineEvent line = none) ∧
    (∀ line v, matchUserIdRegex (trimChars line) = some v →
      useSerialLineEvent line = some (trimChars v)) := by
  refine ⟨by decide, by decide, by decide, by decide, by decide, ?_, ?_, ?_⟩
  · intro line h1 h2
    by_cases he : (trimChars line).isEmpty
    · simp [contextLineEvent, he]
    · simp [contextLineEvent, he, h1, h2]
  · intro line v h1 h2
    by_cases he : (trimChars line).isEmpty
    · simp [contextLineEvent, he]
    · simp [contextLineEvent, he, h1, h2]
  · intro line v h1
    by_cases he : (trimChars line).isEmpty
    · rw [List.isEmpty_iff.mp he] at h1
      simp [matchUserIdRegex] at h1
    · simp [useSerialLineEvent, he, h1]

/-- Witness for C1 at concrete lines: an unmatched line gives no event,
a menu-mode empty capture gives no event in the serial-context variant,
and gives the empty-string sentinel in the useSerial variant. -/
theorem C1_witness :
    contextLineEvent ("noise".toList) = none ∧
    contextLineEvent (("x User ID: " ++ "\" \" y").toList) = none ∧
    useSerialLineEvent (("User ID: " ++ "\"\"").toList) = some (trimChars []) :=
  ⟨C1_extract_table.2.2.2.2.2.1 ("noise".toList) (by decide) (by decide),
   C1_extract_table.2.2.2.2.2.2.1 (("x User ID: " ++ "\" \" y").toList) [' ']
     (by decide) (by decide),
   C1_extract_table.2.2.2.2.2.2.2 (("User ID: " ++ "\"\"").toList) [] (by decide)⟩


/-! ## Session manager (Claims C3-C8) -/

theorem smInv_init (c : Option (List Char)) : smInv (initWithCookie c) :=
  ⟨rfl, rfl⟩

theorem smInv_reconnectInit (c : Option (List Char)) (o : ReconnectOutcome) :
    smInv (reconnectEffect (initWithCookie c) o) := by
  unfold reconnectEffect
  repeat' split
  all_goals exact ⟨rfl, rfl⟩

theorem smInv_step (s : SMState) (a : Act)
    (hg : ∀ o, a = Act.connectA o → s.isConnected = false)
    (h : smInv s) : smInv (stepAct s a) := by
  obtain ⟨hdev, hconn⟩ := h
  rcases a with o | f | t
  · have hport : s.portRef = none := by
      rcases hp : s.portRef with _ | p
      · rfl
      · rw [hg o rfl, hp] at hconn
        simp at hconn
    have hdevs : s.openDevs = [] := by rw [hdev, hport]
    rcases o with _ | msg | ⟨p, msg⟩ | p
    · exact ⟨hdev, hconn⟩
    · exact ⟨by simp [stepAct, connect, hdevs, hport], by simp [stepAct, connect, hport]⟩
    · exact ⟨by simp [stepAct, connect, hdevs, hport], by simp [stepAct, connect, hport]⟩
    · exact ⟨by simp [stepAct, connect, openPortAndRead, hdevs], by
        simp [stepAct, connect, openPortAndRead]⟩
  · refine ⟨?_, rfl⟩
    rcases hp : s.portRef with _ | p
    · simp [stepAct, disconnect, hp, hdev ▸ hp ▸ hdev]
      rw [hdev, hp]
    · simp [stepAct, disconnect, hp]
      rw [hdev, hp]
      simp [List.erase]
  · rcases hw : s.writerRef with _ | w
    · exact ⟨by simp [stepAct, send, hw, hdev], by simp [stepAct, send, hw, hconn]⟩
    · exact ⟨by simp [stepAct, send, hw, hdev], by simp [stepAct, send, hw, hconn]⟩

theorem runActs_inv (acts : List Act) :
    ∀ s, smInv s → connectGuarded s acts = true → smInv (runActs s acts) := by
  induction acts with
  | nil => intro s h _; exact h
  | cons a rest ih =>
    intro s h hg
    simp only [connectGuarded, Bool.and_eq_true] at hg
    refine ih (stepAct s a) (smInv_step s a ?_ h) hg.2
    intro o hao
    subst hao
    simpa using hg.1

/-- Claim C3 counterexample: the source does not guard `connect` by the
connection state. Calling `connect` while Connected, with the user
selecting a second device and the open succeeding, leaves TWO devices open
at once (the first port is never closed, its refs are merely overwritten),
contradicting the claimed invariant. -/
theorem C3_cex :
    (runActs (initWithCookie none)
        [Act.connectA (.opened ⟨1, none⟩),
         Act.connectA (.opened ⟨2, none⟩)]).openDevs.length = 2 := by
  decide

/-- Claim C3 (amended): the at-most-one-open-session invariant holds for
every trace in which `connect` is only invoked while not Connected (and
the auto-reconnect effect runs only once, at startup, before any user
action — as it does in the source, where the effect runs on mount). The
code itself contains no such guard in `connect`: invoked while Connected
it opens a second device over the still-open session (see the
counterexample). -/
theorem C3_single_session (c : Option (List Char)) (r : ReconnectOutcome)
    (acts : List Act)
    (hg : connectGuarded (reconnectEffect (initWithCookie c) r) acts = true) :
    (runActs (reconnectEffect (initWithCookie c) r) acts).openDevs.length ≤ 1 := by
  have h := runActs_inv acts (reconnectEffect (initWithCookie c) r)
    (smInv_reconnectInit c r) hg
  obtain ⟨hdev, _⟩ := h
  rw [hdev]
  rcases (runActs (reconnectEffect (initWithCookie c) r) acts).portRef with _ | p
  · simp
  · simp

/-- Witness for C3 on a concrete guarded trace: connect, disconnect,
connect again. -/
theorem C3_witness :
    connectGuarded (reconnectEffect (initWithCookie none) .getPortsFailed)
      [Act.connectA (.opened ⟨1, none⟩),
       Act.disconnectA ⟨false, false, false⟩,
       Act.connectA (.opened ⟨2, none⟩)] = true ∧
    (runActs (reconnectEffect (initWithCookie none) .getPortsFailed)
      [Act.connectA (.opened ⟨1, none⟩),
       Act.disconnectA ⟨false, false, false⟩,
       Act.connectA (.opened ⟨2, none⟩)]).openDevs.length ≤ 1 :=
  ⟨by decide, C3_single_session none .getPortsFailed _ (by decide)⟩

/-- Claim C4 counterexample: after a successful connect to a device that
reports no vendor/product info, the persisted identity is NOT the identity
of the device just opened — the stale identity of the previous device
remains. Here: connect to device 1 (ids 9025/32822), disconnect, connect
to device 2 (which reports no info); the store still decodes to device 1
ids while the opened device reports none. -/
theorem C4_cex :
    getSerialFilterFromCookie
      (runActs (initWithCookie none)
        [Act.connectA (.opened ⟨1, some ⟨9025, 32822⟩⟩),
         Act.disconnectA ⟨false, false, false⟩,
         Act.connectA (.opened ⟨2, none⟩)]).cookie =
      some ⟨9025, 32822⟩ ∧
    (⟨2, none⟩ : SerialPort).info = none := by
  constructor
  · decide
  · rfl

/-- Claim C4 (amended): after every successful `connect`, the state is
Connected, the error is cleared and the read loop is started; the opened
device identity is persisted exactly when the device reports one
(`getInfo` yields both numeric ids), and otherwise the previously
persisted value is left unchanged. -/
theorem C4_connect_success (s : SMState) (p : SerialPort) :
    (connect s (.opened p)).isConnected = true ∧
    (connect s (.opened p)).error = none ∧
    (connect s (.opened p)).readLoopOn = true ∧
    (∀ f, p.info = some f →
      (connect s (.opened p)).cookie = setSerialFilterCookie s.cookie f) ∧
    (p.info = none → (connect s (.opened p)).cookie = s.cookie) := by
  refine ⟨rfl, rfl, rfl, ?_, ?_⟩
  · intro f hf
    simp [connect, openPortAndRead, hf]
  · intro hf
    simp [connect, openPortAndRead, hf]

/-- Witness for C4 at a concrete state and port. -/
theorem C4_witness :
    (connect (initWithCookie none) (.opened ⟨1, some ⟨9025, 32822⟩⟩)).cookie =
      setSerialFilterCookie none ⟨9025, 32822⟩ ∧
    (connect (initWithCookie none) (.opened ⟨2, none⟩)).cookie = none :=
  ⟨(C4_connect_success (initWithCookie none) ⟨1, some ⟨9025, 32822⟩⟩).2.2.2.1
      ⟨9025, 32822⟩ rfl,
   (C4_connect_success (initWithCookie none) ⟨2, none⟩).2.2.2.2 rfl⟩

/-- Claim C5: when device selection is cancelled or the open fails, the
failure is absorbed by the catch block (`connect` is a total function of
the outcome — nothing propagates), the persisted identity is cleared, the
surfaced error message is set, and the state is Disconnected. This holds
from every prior state. -/
theorem C5_connect_failure (s : SMState) (msg : String) (p : SerialPort) :
    (connect s (.requestFailed msg)).error = some msg ∧
    (connect s (.requestFailed msg)).cookie = none ∧
    (connect s (.requestFailed msg)).isConnected = false ∧
    (connect s (.openFailed p msg)).error = some msg ∧
    (connect s (.openFailed p msg)).cookie = none ∧
    (connect s (.openFailed p msg)).isConnected = false :=
  ⟨rfl, rfl, rfl, rfl, rfl, rfl⟩

/-- Claim C6: the startup auto-reconnect, given a persisted identity
(a stored value decoding to filter f): with no matching authorized device
it ends Disconnected with no error and the persisted value left in place;
with a matching device whose open fails, the persisted value is cleared,
no error is surfaced, and the state stays Disconnected; with a matching
device whose open succeeds, the state is Connected and the read loop is
started. -/
theorem C6_auto_reconnect (raw : Option (List Char)) (f : SerialPortFilter)
    (ports : List SerialPort) (p : SerialPort)
    (hf : getSerialFilterFromCookie raw = some f) :
    (findMatch f ports = none →
      (reconnectEffect (initWithCookie raw) (.getPortsOk ports true)).isConnected
          = false ∧
      (reconnectEffect (initWithCookie raw) (.getPortsOk ports true)).error = none ∧
      (reconnectEffect (initWithCookie raw) (.getPortsOk ports true)).cookie = raw ∧
      (reconnectEffect (initWithCookie raw) (.getPortsOk ports true)).isReconnecting
          = false) ∧
    (findMatch f ports = some p →
      (reconnectEffect (initWithCookie raw) (.getPortsOk ports false)).cookie
          = none ∧
      (reconnectEffect (initWithCookie raw) (.getPortsOk ports false)).isConnected
          = false ∧
      (reconnectEffect (initWithCookie raw) (.getPortsOk ports false)).error
          = none) ∧
    (findMatch f ports = some p →
      (reconnectEffect (initWithCookie raw) (.getPortsOk ports true)).isConnected
          = true ∧
      (reconnectEffect (initWithCookie raw) (.getPortsOk ports true)).readLoopOn
          = true) := by
  have hc : (initWithCookie raw).cookie = raw := rfl
  refine ⟨?_, ?_, ?_⟩
  · intro hm
    simp [reconnectEffect, hc, hf, hm, initWithCookie]
  · intro hm
    simp [reconnectEffect, hc, hf, hm, initWithCookie, clearSerialFilterCookie]
  · intro hm
    simp [reconnectEffect, hc, hf, hm, openPortAndRead]

/-- Witness for C6: a stored identity written by the store itself, one
port list with no match, one with a match, both open outcomes. -/
theorem C6_witness :
    (reconnectEffect
      (initWithCookie (setSerialFilterCookie none ⟨9025, 32822⟩))
      (.getPortsOk [⟨7, some ⟨1, 2⟩⟩] true)).cookie =
        setSerialFilterCookie none ⟨9025, 32822⟩ ∧
    (reconnectEffect
      (initWithCookie (setSerialFilterCookie none ⟨9025, 32822⟩))
      (.getPortsOk [⟨7, some ⟨1, 2⟩⟩, ⟨8, some ⟨9025, 32822⟩⟩] false)).cookie
        = none ∧
    (reconnectEffect
      (initWithCookie (setSerialFilterCookie none ⟨9025, 32822⟩))
      (.getPortsOk [⟨7, some ⟨1, 2⟩⟩, ⟨8, some ⟨9025, 32822⟩⟩] true)).isConnected
        = true :=
  ⟨((C6_auto_reconnect _ ⟨9025, 32822⟩ _ ⟨8, some ⟨9025, 32822⟩⟩
      (by decide)).1 (by decide)).2.2.1,
   ((C6_auto_reconnect _ ⟨9025, 32822⟩ _ ⟨8, some ⟨9025, 32822⟩⟩
      (by decide)).2.1 (by decide)).1,
   ((C6_auto_reconnect _ ⟨9025, 32822⟩ _ ⟨8, some ⟨9025, 32822⟩⟩
      (by decide)).2.2 (by decide)).1⟩

/-- Claim C7: `disconnect` is valid from every state (it is a total
function of the state): it sets the abort flag, drops the reader, writer
and port refs, closing the device, ends Disconnected with the error
cleared, is insensitive to which teardown steps fail (the catch blocks
swallow them), is idempotent, and a subsequent `send` is a no-op that does
not raise (also a total function). -/
theorem C7_disconnect (s : SMState) (f f2 : TeardownFaults) (t : List Char) :
    (disconnect s f).abortFlag = true ∧
    (disconnect s f).readerRef = none ∧
    (disconnect s f).writerRef = none ∧
    (disconnect s f).portRef = none ∧
    (disconnect s f).isConnected = false ∧
    (disconnect s f).error = none ∧
    disconnect s f = disconnect s f2 ∧
    disconnect (disconnect s f) f2 = disconnect s f ∧
    send (disconnect s f) t = disconnect s f := by
  refine ⟨rfl, rfl, rfl, rfl, rfl, rfl, rfl, ?_, rfl⟩
  simp [disconnect]

/-- Claim C8 counterexample: `send` is guarded only by the writer ref, not
by the connection state. A reachable state with the writer still held but
ConnectionState Disconnected exists (connect succeeds, then a second
connect call fails: the catch sets Disconnected without releasing the old
writer), and there `send` DOES transmit, contradicting the claim that
`send` transmits nothing when not Connected. -/
theorem C8_cex :
    (runActs (initWithCookie none)
      [Act.connectA (.opened ⟨1, none⟩),
       Act.connectA (.requestFailed "user cancelled")]).isConnected = false ∧
    (send (runActs (initWithCookie none)
      [Act.connectA (.opened ⟨1, none⟩),
       Act.connectA (.requestFailed "user cancelled")])
      ("READ".toList)).transmitted = ["READ\n".toList] := by
  constructor
  · rfl
  · rfl

/-- Claim C8 (amended): `send` transmits the text with a newline appended
exactly when one is not already present (`send "READ"` transmits
`"READ\n"`, `send "READ\n"` transmits it unchanged); it is a no-op that
never raises exactly when no writer is held (the Connected flag is not
consulted: with a writer held but the state Disconnected, reachable as in
the counterexample, it still transmits). -/
theorem C8_send (s : SMState) (t : List Char) (w : Nat) :
    (s.writerRef = none → send s t = s) ∧
    (s.writerRef = some w →
      (send s t).transmitted = s.transmitted ++ [appendNL t]) ∧
    appendNL ("READ".toList) = ("READ\n".toList) ∧
    appendNL ("READ\n".toList) = ("READ\n".toList) ∧
    (t.getLast? = some '\n' → appendNL t = t) ∧
    (t.getLast? ≠ some '\n' → appendNL t = t ++ ['\n']) := by
  refine ⟨?_, ?_, by decide, by decide, ?_, ?_⟩
  · intro hw
    simp [send, hw]
  · intro hw
    simp [send, hw]
  · intro hl
    simp [appendNL, hl]
  · intro hl
    simp [appendNL, hl]

/-- Witness for C8 at concrete states: no writer (fresh state) means no
transmission; a held writer (after a successful connect) transmits with
the newline appended. -/
theorem C8_witness :
    send (initWithCookie none) ("READ".toList) = initWithCookie none ∧
    (send (connect (initWithCookie none) (.opened ⟨1, none⟩))
        ("READ".toList)).transmitted = [appendNL ("READ".toList)] ∧
    appendNL ("READ".toList) = ("READ\n".toList) :=
  ⟨(C8_send (initWithCookie none) ("READ".toList) 0).1 rfl,
   (C8_send (connect (initWithCookie none) (.opened ⟨1, none⟩))
      ("READ".toList) 1).2.1 rfl,
   (C8_send (initWithCookie none) ("READ".toList) 0).2.2.1⟩


/-! ## Persisted device filter store (Claim C9) -/

/-- Claim C9: `save` overwrites any prior stored value unconditionally;
`clear` is idempotent (and leaves the store absent); and `load` never
raises (it is a total function): it returns absent for a missing stored
value, for a raw value whose percent-decoding fails, for a decoded value
that is not valid JSON, and for valid JSON that lacks numeric
`usbVendorId` and `usbProductId` fields. -/
theorem C9_filter_store (jar : Option (List Char)) (f : SerialPortFilter)
    (raw txt : List Char) :
    setSerialFilterCookie jar f = some (uriEncode (jsonStringifyFilter f)) ∧
    clearSerialFilterCookie (clearSerialFilterCookie jar) =
      clearSerialFilterCookie jar ∧
    clearSerialFilterCookie jar = none ∧
    getSerialFilterFromCookie none = none ∧
    (uriDecode raw = none → getSerialFilterFromCookie (some raw) = none) ∧
    (uriDecode raw = some txt → (jsonParse txt).isNone = true →
      getSerialFilterFromCookie (some raw) = none) ∧
    (uriDecode raw = some txt → (jsonParse txt).map hasNumericIds = some false →
      getSerialFilterFromCookie (some raw) = none) := by
  refine ⟨rfl, rfl, rfl, rfl, ?_, ?_, ?_⟩
  · intro hd
    simp [getSerialFilterFromCookie, hd]
  · intro hd hp
    rw [Option.isNone_iff_eq_none] at hp
    simp [getSerialFilterFromCookie, hd, hp]
  · intro hd hp
    rcases hj : jsonParse txt with _ | j
    · simp [getSerialFilterFromCookie, hd, hj]
    · rw [hj] at hp
      have hnum : hasNumericIds j = false := by simpa using hp
      unfold hasNumericIds at hnum
      simp only [getSerialFilterFromCookie, hd, hj]
      split at hnum
      · exact absurd hnum (by simp)
      · rfl

/-- Witness for C9: concrete corrupt stored values of each kind — a
malformed percent escape, a value that is not JSON, and JSON without the
numeric id fields — all load as absent. -/
theorem C9_witness :
    getSerialFilterFromCookie (some ("%".toList)) = none ∧
    getSerialFilterFromCookie (some ("not json".toList)) = none ∧
    getSerialFilterFromCookie (some ("%7B%22foo%22%3A1%7D".toList)) = none :=
  ⟨(C9_filter_store none ⟨0, 0⟩ ("%".toList) []).2.2.2.2.1 (by decide),
   (C9_filter_store none ⟨0, 0⟩ ("not json".toList) ("not json".toList)
      ).2.2.2.2.2.1 (by decide) (by decide),
   (C9_filter_store none ⟨0, 0⟩ ("%7B%22foo%22%3A1%7D".toList)
      (("\x7b\"foo\":1\x7d").toList)).2.2.2.2.2.2 (by decide) (by decide)⟩

/-- Sanity: a value saved by the store itself loads back as the same
identity (the encode, stringify, decode and parse models cohere). -/
theorem filter_store_roundtrip_example :
    getSerialFilterFromCookie (setSerialFilterCookie none ⟨9025, 32822⟩) =
      some ⟨9025, 32822⟩ := by
  decide

/-! ## useSerialContext fallback (Claim C10) -/

/-- Claim C10: calling `useSerialContext` outside a SerialProvider never
throws (the hook is a total function of the looked-up context): it returns
the inert fallback value, whose `isSupported`, `isConnected` and
`isReconnecting` are false, whose error is absent, and whose `connect`,
`disconnect`, `send` and `setOnTagRead` operations are no-ops on the
session state. -/
theorem C10_fallback (s : SMState) (t : List Char) :
    useSerialContext none = fallbackContextValue ∧
    (useSerialContext none).isSupported = false ∧
    (useSerialContext none).isConnected = false ∧
    (useSerialContext none).isReconnecting = false ∧
    (useSerialContext none).error = none ∧
    (useSerialContext none).connect s = s ∧
    (useSerialContext none).disconnect s = s ∧
    (useSerialContext none).send t s = s ∧
    (useSerialContext none).setOnTagRead s = s :=
  ⟨rfl, rfl, rfl, rfl, rfl, rfl, rfl, rfl, rfl⟩

end TriageID
